import Mathlib

/-!
Shallow embedding of `EthereumJSAdapter`
(src/packages/hardhat-core/src/internal/hardhat-network/provider/vm/ethereumjs.ts).

The adapter wraps an ethereumjs `VM`, a `StateManager` and a `Common` (ruleset
descriptor).  We model:
  * the state manager's contents as an association list of account balances
    (`EVMState`); state roots are content-addressed snapshot identifiers, so in
    the model a state root *is* the state (two equal roots denote equal states);
  * the VM's mutable `_common` field, the `_blockStartStateRoot` checkpoint and
    the `_tracingCallbacks` slot as fields of an `Adapter` record;
  * the EVM's event-emitter listener lists (one per hook kind) explicitly,
    with callbacks identified by reference ids (`Nat`);
  * `vm.runTx` as an opaque function parameter (`RunTxFn`) supplied to each
    operation, returning either a transaction result or an engine-level error
    together with the (possibly mutated) state.
All operations are pure state-passing functions; a thrown JS error is an
`Except.error`, and the `finally` block of `dryRun` corresponds to the
unconditional field restoration in the model.
-/

namespace EthereumJS

/-- Named hardforks in activation order.  `Common.gteHardfork` and
`Common.hardforkGteHardfork` only consult this order. -/
inductive Hardfork
  | chainstart
  | homestead
  | tangerineWhistle
  | spuriousDragon
  | byzantium
  | constantinople
  | petersburg
  | istanbul
  | muirGlacier
  | berlin
  | london
  | arrowGlacier
  | grayGlacier
  | merge
  deriving DecidableEq, Repr

/-- Position of a hardfork in the activation order. -/
def Hardfork.index : Hardfork → Nat
  | .chainstart => 0
  | .homestead => 1
  | .tangerineWhistle => 2
  | .spuriousDragon => 3
  | .byzantium => 4
  | .constantinople => 5
  | .petersburg => 6
  | .istanbul => 7
  | .muirGlacier => 8
  | .berlin => 9
  | .london => 10
  | .arrowGlacier => 11
  | .grayGlacier => 12
  | .merge => 13

/-- `a` is at or after `b` in the activation order. -/
def hardforkGte (a b : Hardfork) : Bool :=
  b.index ≤ a.index

/-- A ruleset descriptor: chain id, network id, hardfork name
(`@nomicfoundation/ethereumjs-common`'s `Common`, restricted to the fields the
adapter reads). -/
structure Common where
  chainId : Nat
  networkId : Nat
  hardfork : Hardfork
  deriving DecidableEq, Repr

/-- `Common.custom({chainId, networkId}, {hardfork})`. -/
def Common.custom (chainId networkId : Nat) (hardfork : Hardfork) : Common :=
  ⟨chainId, networkId, hardfork⟩

/-- `common.gteHardfork(h)`: the common's own hardfork is at or after `h`. -/
def Common.gteHardfork (c : Common) (h : Hardfork) : Bool :=
  hardforkGte c.hardfork h

/-- `common.hardforkGteHardfork(a, b)`: compares the two *given* hardfork
names; the receiver's own hardfork is not consulted. -/
def Common.hardforkGteHardfork (_c : Common) (a b : Hardfork) : Bool :=
  hardforkGte a b

/-- Account addresses (opaque). -/
abbrev Address := Nat

/-- An account as the adapter's lifecycle operations observe it: its balance
(`bigint` in the source, so `Int`). -/
structure Account where
  balance : Int
  deriving DecidableEq, Repr

/-- The state manager's observable contents: an association list from address
to account.  A state root is a content-addressed identifier of a snapshot
(equal roots ⇔ equal states), so in the model the root *is* the state and
`setStateRoot` replaces the contents wholesale. -/
abbrev EVMState := List (Address × Account)

/-- `stateManager.getAccount(addr)`: an absent account reads as an empty
account (zero balance). -/
def getAccount : EVMState → Address → Account
  | [], _ => ⟨0⟩
  | (a, b) :: rest, addr => if a = addr then b else getAccount rest addr

/-- `stateManager.putAccount(addr, acc)`: replace the binding if present,
otherwise add it. -/
def putAccount : EVMState → Address → Account → EVMState
  | [], addr, acc => [(addr, acc)]
  | (a, b) :: rest, addr, acc =>
      if a = addr then (addr, acc) :: rest
      else (a, b) :: putAccount rest addr acc

/-- A transaction as the adapter inspects it: its EIP-2718 type tag, its hash
and its sender address.  The fake-sender wrappers used during replay
(`FakeSenderTransaction` and friends) re-wrap the raw transaction supplying
the already-known sender without re-deriving it from a signature; they
serialize the same payload, so the wrapped transaction's hash equals the
original's. -/
structure BTx where
  type : Nat
  hash : Nat
  sender : Address
  deriving DecidableEq, Repr

/-- A block header, restricted to the fields the adapter reads. -/
structure BlockHeader where
  number : Nat
  baseFeePerGas : Option Nat
  deriving DecidableEq, Repr

/-- A block: header plus ordered transaction list. -/
structure Block where
  header : BlockHeader
  transactions : List BTx
  deriving DecidableEq, Repr

/-- The validation-skipping flags passed to `vm.runTx`. -/
structure RunTxFlags where
  skipNonce : Bool
  skipBalance : Bool
  skipBlockGasLimitValidation : Bool
  deriving DecidableEq, Repr

/-- Flags used by `dryRun`: all validation disabled. -/
def dryRunFlags : RunTxFlags := ⟨true, true, true⟩

/-- Default flags (`runTxInBlock` and replay use full validation). -/
def defaultRunTxFlags : RunTxFlags := ⟨false, false, false⟩

/-- The observable result of executing one transaction (gas used and whether
execution reverted; further fields are irrelevant to the adapter). -/
structure TxResult where
  gasUsed : Nat
  reverted : Bool
  deriving DecidableEq, Repr

/-- `vm.runTx`: an external capability.  Given the VM's installed common, the
validation flags, the block context, the transaction and the current state, it
returns either a result (possibly a *reverted* one — a revert is data, not an
error) or an engine-level error (a thrown JS exception), together with the
possibly mutated state. -/
abbrev RunTxFn := Common → RunTxFlags → Block → BTx → EVMState →
  Except String TxResult × EVMState

/-- The three tracing hooks, identified by callback reference ids
(JS function identity). -/
structure TracingCallbacks where
  beforeMessage : Nat
  step : Nat
  afterMessage : Nat
  deriving DecidableEq, Repr

/-- The `EthereumJSAdapter`'s mutable state: the VM's `_common` field, the
state manager's contents, the `_blockStartStateRoot` checkpoint, the
`_tracingCallbacks` slot, and the EVM event emitter's listener list for each
of the three hook kinds (in registration order). -/
structure Adapter where
  vmCommon : Common
  state : EVMState
  blockStartStateRoot : Option EVMState
  tracingCallbacks : Option TracingCallbacks
  beforeMessageListeners : List Nat
  stepListeners : List Nat
  afterMessageListeners : List Nat
  deriving DecidableEq, Repr

/-- The adapter's construction-time configuration: the constructor arguments
`_common`, `_configNetworkId`, `_configChainId`, `_selectHardfork`,
`_forkNetworkId?`, `_forkBlockNumber?`.  `create` sets the two fork fields
together or not at all. -/
structure AdapterConfig where
  common : Common
  configNetworkId : Nat
  configChainId : Nat
  selectHardfork : Nat → Hardfork
  forkNetworkId : Option Nat
  forkBlockNumber : Option Nat

/-- The argument of `_isEip1559Active`: a block number or the `"pending"`
tag (or absent). -/
inductive BlockTag
  | pending
  | number (n : Nat)
  deriving DecidableEq, Repr

/-- `_isEip1559Active(blockNumberOrPending?)`: for a concrete block number,
compares the hardfork selected for that number against `"london"`; for
`"pending"` or no argument, asks whether the construction-time common is at or
after `"london"`. -/
def isEip1559Active (cfg : AdapterConfig) : Option BlockTag → Bool
  | some (.number n) => cfg.common.hardforkGteHardfork (cfg.selectHardfork n) .london
  | some .pending => cfg.common.gteHardfork .london
  | none => cfg.common.gteHardfork .london

/-- The block context `dryRun` actually executes against: if EIP-1559 is
active for the block's number and the header lacks `baseFeePerGas` (or the
caller forces it), a copy of the block with `baseFeePerGas = 0` replaces the
caller's block; otherwise the caller's block is used unchanged. -/
def dryRunBlockContext (cfg : AdapterConfig) (blockContext : Block)
    (forceBaseFeeZero : Bool) : Block :=
  if isEip1559Active cfg (some (.number blockContext.header.number)) &&
      (blockContext.header.baseFeePerGas.isNone || forceBaseFeeZero) then
    { blockContext with
        header := { blockContext.header with baseFeePerGas := some 0 } }
  else
    blockContext

/-- The temporary common `dryRun` installs on the VM:
`chainId = (no fork, or number ≥ forkBlockNumber) ? configChainId : forkNetworkId`,
`networkId = forkNetworkId ?? configNetworkId`,
`hardfork = selectHardfork(number)`.  (`create` guarantees `forkNetworkId` is
set whenever `forkBlockNumber` is; the `getD 0` branch models the unreachable
undefined read.) -/
def dryRunCommon (cfg : AdapterConfig) (blockNumber : Nat) : Common :=
  Common.custom
    (match cfg.forkBlockNumber with
      | none => cfg.configChainId
      | some forkN =>
          if blockNumber ≥ forkN then cfg.configChainId
          else (cfg.forkNetworkId.getD 0))
    (cfg.forkNetworkId.getD cfg.configNetworkId)
    (cfg.selectHardfork blockNumber)

/-- The observable outcome of one `dryRun` call: the value returned (or error
propagated), plus the block context and common the execution actually ran
under. -/
structure DryRunCall where
  result : Except String TxResult
  usedBlock : Block
  usedCommon : Common
  deriving Repr

/-- `dryRun(tx, blockContext, forceBaseFeeZero)`:
1. snapshot the current state root;
2. derive the (possibly base-fee-zeroed) block context;
3. save the VM's `_common`, install the temporary one;
4. run the transaction with all validation skipped;
5. in a `finally` block, restore the saved `_common` and then the snapshot. -/
def dryRun (cfg : AdapterConfig) (runTx : RunTxFn) (tx : BTx)
    (blockContext : Block) (forceBaseFeeZero : Bool) (a : Adapter) :
    DryRunCall × Adapter :=
  let initialStateRoot := a.state
  let effBlock := dryRunBlockContext cfg blockContext forceBaseFeeZero
  let originalCommon := a.vmCommon
  let newCommon := dryRunCommon cfg blockContext.header.number
  let aDuring := { a with vmCommon := newCommon }
  let (res, s') := runTx aDuring.vmCommon dryRunFlags effBlock tx aDuring.state
  let aAfterRun := { aDuring with state := s' }
  let aFinal :=
    { aAfterRun with vmCommon := originalCommon, state := initialStateRoot }
  (⟨res, effBlock, newCommon⟩, aFinal)

/-- `startBlock()`: throws `"a block is already started"` if a checkpoint is
outstanding; otherwise captures the current state root as the checkpoint. -/
def startBlock (a : Adapter) : Except String Unit × Adapter :=
  match a.blockStartStateRoot with
  | some _ => (.error "a block is already started", a)
  | none => (.ok (), { a with blockStartStateRoot := some a.state })

/-- `runTxInBlock(tx, block)`: runs the transaction on the VM with full
validation (no skip flags) and leaves the mutations applied. -/
def runTxInBlock (runTx : RunTxFn) (tx : BTx) (block : Block) (a : Adapter) :
    Except String TxResult × Adapter :=
  let (res, s') := runTx a.vmCommon defaultRunTxFlags block tx a.state
  (res, { a with state := s' })

/-- The cumulative effect of `addBlockRewards`'s loop on the state: for each
(address, reward) pair in order, read the account, add the reward to its
balance, write it back. -/
def applyRewards : EVMState → List (Address × Int) → EVMState
  | s, [] => s
  | s, (addr, reward) :: rest =>
      let account := getAccount s addr
      applyRewards (putAccount s addr ⟨account.balance + reward⟩) rest

/-- `addBlockRewards(rewards)`: applies each reward in order.  The source has
no check of `_blockStartStateRoot` and no failure path of its own (backend
I/O failures belong to the external state manager). -/
def addBlockRewards (rewards : List (Address × Int)) (a : Adapter) :
    Except String Unit × Adapter :=
  (.ok (), { a with state := applyRewards a.state rewards })

/-- `sealBlock()`: throws if no block was started; otherwise discards the
checkpoint, keeping all state mutated since `startBlock`. -/
def sealBlock (a : Adapter) : Except String Unit × Adapter :=
  match a.blockStartStateRoot with
  | none => (.error "Cannot seal a block that wasn't started", a)
  | some _ => (.ok (), { a with blockStartStateRoot := none })

/-- `revertBlock()`: throws if no block was started; otherwise restores the
state root to the checkpoint and discards it. -/
def revertBlock (a : Adapter) : Except String Unit × Adapter :=
  match a.blockStartStateRoot with
  | none => (.error "Cannot revert a block that wasn't started", a)
  | some root =>
      (.ok (), { a with state := root, blockStartStateRoot := none })

/-- Remove the first occurrence of `x`. -/
def removeFirstOccurrence (x : Nat) : List Nat → List Nat
  | [] => []
  | y :: ys => if y = x then ys else y :: removeFirstOccurrence x ys

/-- `EventEmitter.removeListener`: removes at most one instance — the most
recently added one — of the given listener. -/
def removeLastOccurrence (x : Nat) (l : List Nat) : List Nat :=
  (removeFirstOccurrence x l.reverse).reverse

/-- `enableTracing(callbacks)`: stores the callbacks in `_tracingCallbacks`
(overwriting whatever was there) and appends the three hooks to the EVM
emitter's listener lists.  (The `events` capability is present whenever the
engine was constructed correctly; its absence is an asserted invariant.) -/
def enableTracing (callbacks : TracingCallbacks) (a : Adapter) : Adapter :=
  { a with
      tracingCallbacks := some callbacks
      beforeMessageListeners :=
        a.beforeMessageListeners ++ [callbacks.beforeMessage]
      stepListeners := a.stepListeners ++ [callbacks.step]
      afterMessageListeners :=
        a.afterMessageListeners ++ [callbacks.afterMessage] }

/-- `disableTracing()`: if a session is stored, removes one instance of each
of the three stored hooks from the emitter and clears the slot; otherwise a
no-op. -/
def disableTracing (a : Adapter) : Adapter :=
  match a.tracingCallbacks with
  | none => a
  | some cbs =>
      { a with
          tracingCallbacks := none
          beforeMessageListeners :=
            removeLastOccurrence cbs.beforeMessage a.beforeMessageListeners
          stepListeners := removeLastOccurrence cbs.step a.stepListeners
          afterMessageListeners :=
            removeLastOccurrence cbs.afterMessage a.afterMessageListeners }

/-- The adapter-level errors `traceTransaction` can throw: `InvalidInputError`,
`InternalError`, `TransactionExecutionError`, or a propagated engine-level
exception. -/
inductive TraceErr
  | invalidInput (msg : String)
  | internal (msg : String)
  | txExec (msg : String)
  | engine (msg : String)
  deriving DecidableEq, Repr

/-- Modelled from the spec: the error taxonomy of the providers/errors module
(not under src/).  Invariant violations — internal errors and the replay
transaction-not-found error, whose message says "this should never happen" —
are programming errors, fatal and never retried; invalid-input errors are
user errors; engine-level failures are data carried to the caller. -/
def TraceErr.isProgrammingError : TraceErr → Bool
  | .internal _ => true
  | .txExec _ => true
  | .invalidInput _ => false
  | .engine _ => false

/-- The step-level output of tracing the target transaction:
the traced transaction's hash and its execution result (the detailed
step capture of `VMDebugTracer` is external). -/
structure TraceOutput where
  tracedHash : Nat
  result : TxResult
  deriving DecidableEq, Repr

/-- `_getCommonForTracing(networkId, blockNumber)`: a common with
`chainId = networkId = networkId` and the hardfork selected for the block
number.  (The `try/catch` around `Common.custom` guards external registry
lookups, which cannot fail in the model.) -/
def getCommonForTracing (cfg : AdapterConfig) (networkId : Nat)
    (blockNumber : Nat) : Common :=
  Common.custom networkId networkId (cfg.selectHardfork blockNumber)

/-- The common of the VM `traceTransaction` replays on: for a block at or
before the fork boundary, a transient VM bound to the fork-side common (the
`assertHardhatInvariant` on `_forkNetworkId` throws if it is absent);
otherwise the adapter's own VM with its installed common. -/
def traceVmCommon (cfg : AdapterConfig) (a : Adapter) (blockNumber : Nat) :
    Except TraceErr Common :=
  match cfg.forkBlockNumber with
  | some forkN =>
      if blockNumber ≤ forkN then
        match cfg.forkNetworkId with
        | none =>
            .error (.internal
              "this._forkNetworkId should exist if this._forkBlockNumber exists")
        | some forkNetId => .ok (getCommonForTracing cfg forkNetId blockNumber)
      else .ok a.vmCommon
  | none => .ok a.vmCommon

/-- The replay loop of `traceTransaction` over a block's transaction list.
Returns the call's result, the ordered log of executed transactions (hash of
each executed transaction, paired with whether it ran inside the tracing
session), and the final state.  Per transaction: wrap it in the fake-sender
wrapper for its type (types 0, 1, 2; anything else throws `InternalError`
before any comparison), then if the wrapped hash equals the target, run it
traced and return its detail; otherwise run it normally, discard the result
and continue.  An exhausted list throws `TransactionExecutionError`. -/
def replayBlockTxs (runTx : RunTxFn) (c : Common) (hash : Nat)
    (block : Block) : List BTx → EVMState →
    Except TraceErr TraceOutput × List (Nat × Bool) × EVMState
  | [], s =>
      (.error (.txExec
        "Unable to find a transaction in a block that contains that transaction, this should never happen"),
       [], s)
  | tx :: rest, s =>
      if tx.type = 0 ∨ tx.type = 1 ∨ tx.type = 2 then
        if tx.hash = hash then
          match runTx c defaultRunTxFlags block tx s with
          | (.ok r, s') => (.ok ⟨tx.hash, r⟩, [(tx.hash, true)], s')
          | (.error e, s') => (.error (.engine e), [(tx.hash, true)], s')
        else
          match runTx c defaultRunTxFlags block tx s with
          | (.ok _, s') =>
              let (res, log, s'') := replayBlockTxs runTx c hash block rest s'
              (res, (tx.hash, false) :: log, s'')
          | (.error e, s') => (.error (.engine e), [(tx.hash, false)], s')
      else
        (.error (.internal "Only legacy, EIP2930, and EIP1559 txs are supported"),
         [], s)

/-- The observable outcome of a `traceTransaction` call: result, the ordered
execution log, and the common the replay VM ran under (absent when the call
failed before selecting one). -/
structure TraceCall where
  result : Except TraceErr TraceOutput
  executed : List (Nat × Bool)
  usedCommon : Option Common
  deriving Repr

/-- `traceTransaction(hash, block, config)`:
1. pick the replay VM — a transient fork-side one for `blockNumber ≤
   forkBlockNumber`, otherwise the adapter's own;
2. reject with `InvalidInputError` if its common predates Spurious Dragon;
3. replay the block's transactions in order against the shared state manager
   (mutations persist on the adapter's state). -/
def traceTransaction (cfg : AdapterConfig) (runTx : RunTxFn) (hash : Nat)
    (block : Block) (a : Adapter) : TraceCall × Adapter :=
  match traceVmCommon cfg a block.header.number with
  | .error e => (⟨.error e, [], none⟩, a)
  | .ok c =>
      if c.gteHardfork .spuriousDragon then
        let (res, log, s') :=
          replayBlockTxs runTx c hash block block.transactions a.state
        (⟨res, log, some c⟩, { a with state := s' })
      else
        (⟨.error (.invalidInput
            "Tracing is not supported for transactions using hardforks older than Spurious Dragon. "),
          [], some c⟩, a)

/-- One step of the block-building phase between `startBlock` and
`sealBlock`/`revertBlock`: a transaction run or a reward application. -/
inductive BlockOp
  | tx (t : BTx) (b : Block)
  | rewards (rs : List (Address × Int))

/-- Apply one block-building step to the adapter (results discarded; only the
state effect matters for the lifecycle theorems). -/
def applyBlockOp (runTx : RunTxFn) (a : Adapter) : BlockOp → Adapter
  | .tx t b => (runTxInBlock runTx t b a).2
  | .rewards rs => (addBlockRewards rs a).2

/-! ### Concrete fixtures for counterexamples and witnesses -/

/-- A run-transaction capability that always succeeds, charging 21000 gas and
leaving the state unchanged. -/
def constRunTx : RunTxFn := fun _ _ _ _ s => (.ok ⟨21000, false⟩, s)

/-- A legacy transaction with hash 10. -/
def txA : BTx := ⟨0, 10, 1⟩

/-- An access-list transaction with hash 11. -/
def txB : BTx := ⟨1, 11, 1⟩

/-- A fee-market transaction with hash 12. -/
def txC : BTx := ⟨2, 12, 1⟩

/-- A transaction with an unsupported type tag. -/
def txBad : BTx := ⟨3, 13, 1⟩

/-- A block at the given number with the given transactions. -/
def blockAt (n : Nat) (txs : List BTx) : Block := ⟨⟨n, some 0⟩, txs⟩

/-- A non-forked configuration on the London hardfork. -/
def localCfg : AdapterConfig :=
  { common := ⟨1, 7, .london⟩
    configNetworkId := 7
    configChainId := 1
    selectHardfork := fun _ => .london
    forkNetworkId := none
    forkBlockNumber := none }

/-- A configuration forked at block 5 from a remote network with id 99. -/
def forkCfg : AdapterConfig :=
  { common := ⟨1, 7, .london⟩
    configNetworkId := 7
    configChainId := 1
    selectHardfork := fun _ => .london
    forkNetworkId := some 99
    forkBlockNumber := some 5 }

/-- An idle adapter holding one account with zero balance. -/
def baseAdapter : Adapter :=
  { vmCommon := ⟨1, 7, .london⟩
    state := [(1, ⟨0⟩)]
    blockStartStateRoot := none
    tracingCallbacks := none
    beforeMessageListeners := []
    stepListeners := []
    afterMessageListeners := [] }

/-- An adapter with a block in progress (checkpointed at the empty state). -/
def busyAdapter : Adapter :=
  { baseAdapter with blockStartStateRoot := some [] }

/-- An adapter whose VM common is on a hardfork older than Spurious Dragon. -/
def oldAdapter : Adapter :=
  { baseAdapter with vmCommon := ⟨1, 7, .homestead⟩ }

/-! ### Helper lemmas -/

/-- Reading back the account just written returns it. -/
theorem getAccount_putAccount (s : EVMState) (addr : Address) (acc : Account) :
    getAccount (putAccount s addr acc) addr = acc := by
  induction s with
  | nil => simp [putAccount, getAccount]
  | cons hd tl ih =>
      obtain ⟨a, b⟩ := hd
      by_cases h : a = addr <;> simp [putAccount, getAccount, h, ih]

/-- Block-building steps never touch the `_blockStartStateRoot` checkpoint. -/
theorem applyBlockOp_checkpoint (runTx : RunTxFn) (a : Adapter) (op : BlockOp) :
    (applyBlockOp runTx a op).blockStartStateRoot = a.blockStartStateRoot := by
  cases op <;> rfl

/-- A whole sequence of block-building steps never touches the checkpoint. -/
theorem foldl_blockOps_checkpoint (runTx : RunTxFn) (ops : List BlockOp)
    (a : Adapter) :
    (ops.foldl (applyBlockOp runTx) a).blockStartStateRoot =
      a.blockStartStateRoot := by
  induction ops generalizing a with
  | nil => rfl
  | cons op rest ih =>
      rw [List.foldl_cons, ih, applyBlockOp_checkpoint]

/-! ### Claim theorems -/

/-- Claim C1: for every transaction, block context and run-transaction
capability — whether execution succeeds, the transaction reverts (a reverted
`TxResult` is data, not an error), or the engine throws — `dryRun` returns
with the adapter exactly as before the call: the state root and the VM's
installed common (ruleset) equal their pre-call values, and the fee-market
adjusted block context is never persisted, even though the execution itself
ran against the temporary common and the adjusted block context. -/
theorem dryRun_restores_stateRoot_and_common (cfg : AdapterConfig)
    (runTx : RunTxFn) (tx : BTx) (blockContext : Block)
    (forceBaseFeeZero : Bool) (a : Adapter) :
    (dryRun cfg runTx tx blockContext forceBaseFeeZero a).2 = a ∧
    (dryRun cfg runTx tx blockContext forceBaseFeeZero a).2.state = a.state ∧
    (dryRun cfg runTx tx blockContext forceBaseFeeZero a).2.vmCommon =
      a.vmCommon ∧
    (dryRun cfg runTx tx blockContext forceBaseFeeZero a).1.result =
      (runTx (dryRunCommon cfg blockContext.header.number) dryRunFlags
        (dryRunBlockContext cfg blockContext forceBaseFeeZero) tx a.state).1 :=
  ⟨rfl, rfl, rfl, rfl⟩

/-- Claim C2 counterexample: with a fork boundary at block 5 and remote
network id 99, `dryRun` for a block whose number is exactly the fork block
number installs the *locally configured* chain id 1, not the remote network
id 99 — the source compares with `>=`, so the fork block itself is already on
the local side for `dryRun`. -/
theorem dryRun_fork_block_uses_local_chainId :
    forkCfg.forkBlockNumber = some 5 ∧
    forkCfg.forkNetworkId = some 99 ∧
    (blockAt 5 []).header.number = 5 ∧
    (dryRun forkCfg constRunTx txA (blockAt 5 []) false
        baseAdapter).1.usedCommon.chainId ≠ 99 ∧
    (dryRun forkCfg constRunTx txA (blockAt 5 []) false
        baseAdapter).1.usedCommon.chainId = forkCfg.configChainId := by
  decide

/-- Claim C2 amended: with forkBlockNumber = N and forkNetworkId = F,
`dryRun` installs the remote network id F as the chain id exactly for block
numbers strictly below N and the locally configured chain id for numbers at
or above N (the network id is always F); `traceTransaction` replays on the
fork-side common (chain id and network id both F, hardfork selected for the
block number) exactly for block numbers at or below N, and on the VM's own
common for numbers above N.  The two operations therefore disagree at block
number N itself. -/
theorem fork_boundary_chain_selection (cfg : AdapterConfig) (runTx : RunTxFn)
    (tx : BTx) (hash : Nat) (blk : Block) (force : Bool) (a : Adapter)
    (forkN forkNetId : Nat)
    (hN : cfg.forkBlockNumber = some forkN)
    (hF : cfg.forkNetworkId = some forkNetId) :
    (dryRun cfg runTx tx blk force a).1.usedCommon =
      Common.custom
        (if forkN ≤ blk.header.number then cfg.configChainId else forkNetId)
        forkNetId (cfg.selectHardfork blk.header.number) ∧
    (traceTransaction cfg runTx hash blk a).1.usedCommon =
      some (if blk.header.number ≤ forkN then
              Common.custom forkNetId forkNetId
                (cfg.selectHardfork blk.header.number)
            else a.vmCommon) := by
  constructor
  · show dryRunCommon cfg blk.header.number = _
    unfold dryRunCommon
    rw [hN, hF]
    by_cases h : forkN ≤ blk.header.number <;>
      simp [Common.custom, h, Option.getD]
  · have hvm : traceVmCommon cfg a blk.header.number =
        .ok (if blk.header.number ≤ forkN then
                Common.custom forkNetId forkNetId
                  (cfg.selectHardfork blk.header.number)
              else a.vmCommon) := by
      unfold traceVmCommon
      rw [hN, hF]
      by_cases h : blk.header.number ≤ forkN <;>
        simp [getCommonForTracing, h]
    unfold traceTransaction
    rw [hvm]
    by_cases hsd : (if blk.header.number ≤ forkN then
        Common.custom forkNetId forkNetId
          (cfg.selectHardfork blk.header.number)
      else a.vmCommon).gteHardfork .spuriousDragon <;>
      simp [hsd]

/-- Claim C2 amended, witness: instantiated at the `forkCfg` fixture
(fork boundary 5, remote id 99) for a block number 4 on the remote side. -/
theorem fork_boundary_chain_selection_witness :
    (dryRun forkCfg constRunTx txA (blockAt 4 []) false
        baseAdapter).1.usedCommon = Common.custom 99 99 .london ∧
    (traceTransaction forkCfg constRunTx 11 (blockAt 4 [])
        baseAdapter).1.usedCommon = some (Common.custom 99 99 .london) :=
  fork_boundary_chain_selection forkCfg constRunTx txA 11 (blockAt 4 [])
    false baseAdapter 5 99 rfl rfl

/-- Claim C3 counterexample: with no block in progress
(`blockStartStateRoot = none`), `addBlockRewards` does not fail — it returns
normally and credits the reward: account 1's balance goes from 0 to 5. -/
theorem addBlockRewards_idle_succeeds_and_mutates :
    baseAdapter.blockStartStateRoot = none ∧
    (addBlockRewards [(1, 5)] baseAdapter).1 = .ok () ∧
    getAccount (addBlockRewards [(1, 5)] baseAdapter).2.state 1 = ⟨5⟩ := by
  refine ⟨rfl, rfl, ?_⟩
  decide

/-- Claim C3 amended: `addBlockRewards` performs no active-block check at
all.  Called with no outstanding `startBlock` checkpoint it does not fail; it
leaves the checkpoint absent and still applies every balance increment, in
particular crediting a single reward entry to the target account. -/
theorem addBlockRewards_has_no_guard (rewards : List (Address × Int))
    (a : Adapter) (h : a.blockStartStateRoot = none) :
    (addBlockRewards rewards a).1 = .ok () ∧
    (addBlockRewards rewards a).2.blockStartStateRoot = none ∧
    (addBlockRewards rewards a).2.state = applyRewards a.state rewards ∧
    ∀ addr r, getAccount (addBlockRewards [(addr, r)] a).2.state addr =
      ⟨(getAccount a.state addr).balance + r⟩ := by
  refine ⟨rfl, ?_, rfl, ?_⟩
  · show a.blockStartStateRoot = none
    exact h
  · intro addr r
    show getAccount (applyRewards a.state [(addr, r)]) addr = _
    simp [applyRewards, getAccount_putAccount]

/-- Claim C3 amended, witness: instantiated at the idle `baseAdapter` with a
single reward of 5 to account 1. -/
theorem addBlockRewards_has_no_guard_witness :
    (addBlockRewards [(1, 5)] baseAdapter).1 = .ok () ∧
    (addBlockRewards [(1, 5)] baseAdapter).2.blockStartStateRoot = none ∧
    getAccount (addBlockRewards [(1, 5)] baseAdapter).2.state 1 =
      ⟨(getAccount baseAdapter.state 1).balance + 5⟩ :=
  have h := addBlockRewards_has_no_guard [(1, 5)] baseAdapter rfl
  ⟨h.1, h.2.1, h.2.2.2 1 5⟩

/-- Claim C4: for every sequence of `runTxInBlock` and `addBlockRewards`
steps performed between a `startBlock` (taken in the idle state, so it
captures the current state root) and a `revertBlock`, the `revertBlock`
succeeds, the state root afterwards equals the one captured at `startBlock`,
and the checkpoint is discarded (the adapter is idle again). -/
theorem revertBlock_restores_start_root (runTx : RunTxFn) (ops : List BlockOp)
    (a : Adapter) (h : a.blockStartStateRoot = none) :
    (startBlock a).1 = .ok () ∧
    (revertBlock (ops.foldl (applyBlockOp runTx) (startBlock a).2)).1 =
      .ok () ∧
    (revertBlock (ops.foldl (applyBlockOp runTx) (startBlock a).2)).2.state =
      a.state ∧
    (revertBlock (ops.foldl (applyBlockOp runTx)
        (startBlock a).2)).2.blockStartStateRoot = none := by
  have h1 : (startBlock a).2.blockStartStateRoot = some a.state := by
    unfold startBlock
    rw [h]
  have h2 : (ops.foldl (applyBlockOp runTx)
      (startBlock a).2).blockStartStateRoot = some a.state := by
    rw [foldl_blockOps_checkpoint, h1]
  refine ⟨?_, ?_, ?_, ?_⟩
  · unfold startBlock
    rw [h]
  all_goals
    unfold revertBlock
    rw [h2]

/-- Claim C4, witness: a reward application followed by a transaction run,
between `startBlock` and `revertBlock` on the idle `baseAdapter`. -/
theorem revertBlock_restores_start_root_witness :
    (revertBlock ([BlockOp.rewards [(1, 5)], BlockOp.tx txA (blockAt 1 [])].foldl
        (applyBlockOp constRunTx) (startBlock baseAdapter).2)).1 = .ok () ∧
    (revertBlock ([BlockOp.rewards [(1, 5)], BlockOp.tx txA (blockAt 1 [])].foldl
        (applyBlockOp constRunTx) (startBlock baseAdapter).2)).2.state =
      baseAdapter.state ∧
    (revertBlock ([BlockOp.rewards [(1, 5)], BlockOp.tx txA (blockAt 1 [])].foldl
        (applyBlockOp constRunTx)
        (startBlock baseAdapter).2)).2.blockStartStateRoot = none :=
  have h := revertBlock_restores_start_root constRunTx
    [BlockOp.rewards [(1, 5)], BlockOp.tx txA (blockAt 1 [])] baseAdapter rfl
  ⟨h.2.1, h.2.2.1, h.2.2.2⟩

/-- Claim C5: `startBlock` with a block already in progress fails with
"a block is already started" and leaves the adapter — in particular the
original checkpoint — untouched; a second `startBlock` right after a
successful one therefore always fails, with the first checkpoint intact; and
in the idle state both `sealBlock` and `revertBlock` fail with their
respective errors, leaving the adapter unchanged. -/
theorem lifecycle_exclusivity (a : Adapter) :
    (∀ r, a.blockStartStateRoot = some r →
        (startBlock a).1 = .error "a block is already started" ∧
        (startBlock a).2 = a) ∧
    (a.blockStartStateRoot = none →
        (startBlock (startBlock a).2).1 =
          .error "a block is already started" ∧
        (startBlock (startBlock a).2).2.blockStartStateRoot = some a.state) ∧
    (a.blockStartStateRoot = none →
        (sealBlock a).1 = .error "Cannot seal a block that wasn't started" ∧
        (sealBlock a).2 = a ∧
        (revertBlock a).1 =
          .error "Cannot revert a block that wasn't started" ∧
        (revertBlock a).2 = a) := by
  refine ⟨fun r hr => ?_, fun h => ?_, fun h => ?_⟩
  · constructor <;> · unfold startBlock; rw [hr]
  · constructor <;> · unfold startBlock; rw [h]
  · refine ⟨?_, ?_, ?_, ?_⟩ <;>
      · simp only [sealBlock, revertBlock]; rw [h]

/-- Claim C5, witness: instantiated at `busyAdapter` (block in progress) and
the idle `baseAdapter`. -/
theorem lifecycle_exclusivity_witness :
    ((startBlock busyAdapter).1 = .error "a block is already started" ∧
     (startBlock busyAdapter).2 = busyAdapter) ∧
    ((sealBlock baseAdapter).1 =
        .error "Cannot seal a block that wasn't started" ∧
     (sealBlock baseAdapter).2 = baseAdapter ∧
     (revertBlock baseAdapter).1 =
        .error "Cannot revert a block that wasn't started" ∧
     (revertBlock baseAdapter).2 = baseAdapter) :=
  ⟨(lifecycle_exclusivity busyAdapter).1 [] rfl,
   (lifecycle_exclusivity baseAdapter).2.2 rfl⟩

/-- Replay over `before ++ target :: after` where every transaction in
`before` has a supported type and a hash different from the target's, the
target has a supported type and the target hash, and the engine never throws:
the executed log is exactly the `before` transactions untraced followed by
the target traced, and the call returns the target's trace. -/
theorem replayBlockTxs_split (runTx : RunTxFn) (c : Common) (hash : Nat)
    (block : Block)
    (hRun : ∀ cm fl bl t s, ∃ r s', runTx cm fl bl t s = (.ok r, s'))
    (before : List BTx) (target : BTx) (after : List BTx)
    (hB : ∀ t ∈ before,
      t.hash ≠ hash ∧ (t.type = 0 ∨ t.type = 1 ∨ t.type = 2))
    (hT : target.hash = hash)
    (hTy : target.type = 0 ∨ target.type = 1 ∨ target.type = 2)
    (s : EVMState) :
    (replayBlockTxs runTx c hash block (before ++ target :: after) s).2.1 =
      before.map (fun t => (t.hash, false)) ++ [(hash, true)] ∧
    ∃ r,
      (replayBlockTxs runTx c hash block (before ++ target :: after) s).1 =
        .ok ⟨hash, r⟩ := by
  induction before generalizing s with
  | nil =>
      obtain ⟨r, s', hr⟩ := hRun c defaultRunTxFlags block target s
      refine ⟨?_, r, ?_⟩ <;> simp [replayBlockTxs, hTy, hT, hr]
  | cons t rest ih =>
      obtain ⟨ht, hty⟩ := hB t (List.mem_cons_self t rest)
      obtain ⟨r, s', hr⟩ := hRun c defaultRunTxFlags block t s
      have ihs := ih (fun t' ht' => hB t' (List.mem_cons_of_mem t ht')) s'
      rcases hrec : replayBlockTxs runTx c hash block
          (rest ++ target :: after) s' with ⟨res, log, s''⟩
      rw [hrec] at ihs
      have hstep : replayBlockTxs runTx c hash block
          ((t :: rest) ++ target :: after) s = (res, (t.hash, false) :: log, s'') := by
        simp [replayBlockTxs, hty, ht, hr, hrec]
      rw [hstep]
      refine ⟨?_, ihs.2⟩
      have hlog : log = List.map (fun t => (t.hash, false)) rest ++ [(hash, true)] :=
        ihs.1
      simp [hlog]

/-- Replay of a list in which no transaction's hash matches the target (and
all types are supported, and the engine never throws) exhausts the list and
fails with the transaction-not-found error. -/
theorem replayBlockTxs_not_found (runTx : RunTxFn) (c : Common) (hash : Nat)
    (block : Block)
    (hRun : ∀ cm fl bl t s, ∃ r s', runTx cm fl bl t s = (.ok r, s'))
    (txs : List BTx)
    (hAll : ∀ t ∈ txs,
      t.hash ≠ hash ∧ (t.type = 0 ∨ t.type = 1 ∨ t.type = 2))
    (s : EVMState) :
    (replayBlockTxs runTx c hash block txs s).1 =
      .error (.txExec
        "Unable to find a transaction in a block that contains that transaction, this should never happen") := by
  induction txs generalizing s with
  | nil => rfl
  | cons t rest ih =>
      obtain ⟨ht, hty⟩ := hAll t (List.mem_cons_self t rest)
      obtain ⟨r, s', hr⟩ := hRun c defaultRunTxFlags block t s
      have ihs := ih (fun t' ht' => hAll t' (List.mem_cons_of_mem t ht')) s'
      simp [replayBlockTxs, hty, ht, hr, ihs]

/-- Replay of `before ++ bad :: rest` where `before` contains only supported,
non-matching transactions and `bad` has an unsupported type fails with the
unsupported-type `InternalError` as soon as `bad` is reached — before any
hash comparison for `bad`. -/
theorem replayBlockTxs_unsupported_type (runTx : RunTxFn) (c : Common)
    (hash : Nat) (block : Block)
    (hRun : ∀ cm fl bl t s, ∃ r s', runTx cm fl bl t s = (.ok r, s'))
    (before : List BTx) (bad : BTx) (rest : List BTx)
    (hB : ∀ t ∈ before,
      t.hash ≠ hash ∧ (t.type = 0 ∨ t.type = 1 ∨ t.type = 2))
    (hBad : ¬(bad.type = 0 ∨ bad.type = 1 ∨ bad.type = 2))
    (s : EVMState) :
    (replayBlockTxs runTx c hash block (before ++ bad :: rest) s).1 =
      .error (.internal "Only legacy, EIP2930, and EIP1559 txs are supported") := by
  induction before generalizing s with
  | nil => simp [replayBlockTxs, hBad]
  | cons t rest' ih =>
      obtain ⟨ht, hty⟩ := hB t (List.mem_cons_self t rest')
      obtain ⟨r, s', hr⟩ := hRun c defaultRunTxFlags block t s
      have ihs := ih (fun t' ht' => hB t' (List.mem_cons_of_mem t ht')) s'
      simp [replayBlockTxs, hty, ht, hr, ihs]

/-- Claim C6: when the block's transactions are `before ++ target :: after`
with the target's (wrapped) hash equal to the requested hash and no earlier
transaction matching it, all types supported and the engine never throwing,
`traceTransaction` executes exactly the `before` transactions in stored order
outside the tracing session (results discarded), executes the target inside
the tracing session and returns its trace — and never executes any
transaction after the target. -/
theorem traceTransaction_replays_in_order (cfg : AdapterConfig)
    (runTx : RunTxFn) (hash : Nat) (block : Block) (a : Adapter) (c : Common)
    (hRun : ∀ cm fl bl t s, ∃ r s', runTx cm fl bl t s = (.ok r, s'))
    (hC : traceVmCommon cfg a block.header.number = .ok c)
    (hHf : c.gteHardfork .spuriousDragon = true)
    (before : List BTx) (target : BTx) (after : List BTx)
    (hSplit : block.transactions = before ++ target :: after)
    (hB : ∀ t ∈ before,
      t.hash ≠ hash ∧ (t.type = 0 ∨ t.type = 1 ∨ t.type = 2))
    (hT : target.hash = hash)
    (hTy : target.type = 0 ∨ target.type = 1 ∨ target.type = 2) :
    (traceTransaction cfg runTx hash block a).1.executed =
      before.map (fun t => (t.hash, false)) ++ [(hash, true)] ∧
    ∃ r, (traceTransaction cfg runTx hash block a).1.result = .ok ⟨hash, r⟩ := by
  have h := replayBlockTxs_split runTx c hash block hRun before target after
    hB hT hTy a.state
  rw [← hSplit] at h
  rcases hrep : replayBlockTxs runTx c hash block block.transactions a.state
    with ⟨res, log, s''⟩
  rw [hrep] at h
  have hlog : log = before.map (fun t => (t.hash, false)) ++ [(hash, true)] :=
    h.1
  obtain ⟨r, hres⟩ := h.2
  have hr : res = .ok ⟨hash, r⟩ := hres
  simp [traceTransaction, hC, hHf, hrep, hlog, hr]

/-- Claim C6, witness: a block with transactions `[txA, txB, txC]` traced for
`txB`'s hash 11: `txA` runs untraced, `txB` runs traced and its trace is
returned, `txC` never runs. -/
theorem traceTransaction_replays_in_order_witness :
    (traceTransaction localCfg constRunTx 11 (blockAt 1 [txA, txB, txC])
        baseAdapter).1.executed = [(10, false), (11, true)] ∧
    ∃ r, (traceTransaction localCfg constRunTx 11
        (blockAt 1 [txA, txB, txC]) baseAdapter).1.result = .ok ⟨11, r⟩ := by
  have h := traceTransaction_replays_in_order localCfg constRunTx 11
    (blockAt 1 [txA, txB, txC]) baseAdapter ⟨1, 7, .london⟩
    (fun cm fl bl t s => ⟨⟨21000, false⟩, s, rfl⟩) rfl rfl
    [txA] txB [txC] rfl (by decide) rfl (by decide)
  simpa [txA, txB] using h

/-- Claim C7: `dryRun` executes against a modified block context with base
fee fixed at zero exactly when the hardfork selected for the block's number
is at or after London (fee-market activation) and either the header lacks a
`baseFeePerGas` field or the caller passed `forceBaseFeeZero`; otherwise the
caller's block context is used unchanged. -/
theorem dryRun_baseFee_zero_condition (cfg : AdapterConfig) (runTx : RunTxFn)
    (tx : BTx) (blk : Block) (force : Bool) (a : Adapter) :
    (dryRun cfg runTx tx blk force a).1.usedBlock =
      if hardforkGte (cfg.selectHardfork blk.header.number) .london = true ∧
          (blk.header.baseFeePerGas = none ∨ force = true) then
        { blk with header := { blk.header with baseFeePerGas := some 0 } }
      else blk := by
  show dryRunBlockContext cfg blk force = _
  rcases hbf : blk.header.baseFeePerGas with _ | v <;>
    rcases hf : hardforkGte (cfg.selectHardfork blk.header.number) .london <;>
      cases force <;>
        simp [dryRunBlockContext, isEip1559Active, Common.hardforkGteHardfork,
          hf, hbf]

/-- Claim C8: whenever the common of the VM selected to replay the block —
the fork-side common for the block's number when the block is at or before
the fork boundary, the VM's installed common otherwise — predates Spurious
Dragon, `traceTransaction` rejects with the `InvalidInputError` (a user-input
error, not a programming error) before executing any transaction, leaving
the adapter untouched. -/
theorem traceTransaction_rejects_pre_spuriousDragon (cfg : AdapterConfig)
    (runTx : RunTxFn) (hash : Nat) (blk : Block) (a : Adapter) (c : Common)
    (hC : traceVmCommon cfg a blk.header.number = .ok c)
    (hOld : c.gteHardfork .spuriousDragon = false) :
    (traceTransaction cfg runTx hash blk a).1.result =
      .error (.invalidInput
        "Tracing is not supported for transactions using hardforks older than Spurious Dragon. ") ∧
    (traceTransaction cfg runTx hash blk a).1.executed = [] ∧
    (traceTransaction cfg runTx hash blk a).2 = a ∧
    TraceErr.isProgrammingError (.invalidInput
      "Tracing is not supported for transactions using hardforks older than Spurious Dragon. ") =
      false := by
  refine ⟨?_, ?_, ?_, rfl⟩ <;> simp [traceTransaction, hC, hOld]

/-- Claim C8, witness: a non-forked adapter whose VM common is on Homestead
rejects tracing of any block without executing anything. -/
theorem traceTransaction_rejects_pre_spuriousDragon_witness :
    (traceTransaction localCfg constRunTx 11 (blockAt 1 [txA, txB])
        oldAdapter).1.result =
      .error (.invalidInput
        "Tracing is not supported for transactions using hardforks older than Spurious Dragon. ") ∧
    (traceTransaction localCfg constRunTx 11 (blockAt 1 [txA, txB])
        oldAdapter).1.executed = [] ∧
    (traceTransaction localCfg constRunTx 11 (blockAt 1 [txA, txB])
        oldAdapter).2 = oldAdapter :=
  have h := traceTransaction_rejects_pre_spuriousDragon localCfg constRunTx 11
    (blockAt 1 [txA, txB]) oldAdapter ⟨1, 7, .homestead⟩ rfl rfl
  ⟨h.1, h.2.1, h.2.2.1⟩

/-- Claim C9: during replay (with the engine never throwing), a transaction
whose type is none of 0, 1, 2 makes `traceTransaction` fail with the
unsupported-type `InternalError` — a programming error; and if every
transaction of the block has a supported type but none matches the target
hash, the call fails with the transaction-not-found
`TransactionExecutionError`, likewise classified as a programming error
(never a transient condition) under the spec's error taxonomy. -/
theorem traceTransaction_replay_failure_modes (cfg : AdapterConfig)
    (runTx : RunTxFn) (hash : Nat) (block : Block) (a : Adapter) (c : Common)
    (hRun : ∀ cm fl bl t s, ∃ r s', runTx cm fl bl t s = (.ok r, s'))
    (hC : traceVmCommon cfg a block.header.number = .ok c)
    (hHf : c.gteHardfork .spuriousDragon = true) :
    (∀ before bad rest, block.transactions = before ++ bad :: rest →
      (∀ t ∈ before,
        t.hash ≠ hash ∧ (t.type = 0 ∨ t.type = 1 ∨ t.type = 2)) →
      ¬(bad.type = 0 ∨ bad.type = 1 ∨ bad.type = 2) →
      (traceTransaction cfg runTx hash block a).1.result =
        .error (.internal "Only legacy, EIP2930, and EIP1559 txs are supported") ∧
      TraceErr.isProgrammingError
        (.internal "Only legacy, EIP2930, and EIP1559 txs are supported") =
        true) ∧
    ((∀ t ∈ block.transactions,
        t.hash ≠ hash ∧ (t.type = 0 ∨ t.type = 1 ∨ t.type = 2)) →
      (traceTransaction cfg runTx hash block a).1.result =
        .error (.txExec
          "Unable to find a transaction in a block that contains that transaction, this should never happen") ∧
      TraceErr.isProgrammingError (.txExec
        "Unable to find a transaction in a block that contains that transaction, this should never happen") =
        true) := by
  constructor
  · intro before bad rest hSplit hB hBad
    have h := replayBlockTxs_unsupported_type runTx c hash block hRun before
      bad rest hB hBad a.state
    rw [← hSplit] at h
    rcases hrep : replayBlockTxs runTx c hash block block.transactions a.state
      with ⟨res, log, s''⟩
    rw [hrep] at h
    have hr : res =
        .error (.internal "Only legacy, EIP2930, and EIP1559 txs are supported") :=
      h
    exact ⟨by simp [traceTransaction, hC, hHf, hrep, hr], rfl⟩
  · intro hAll
    have h := replayBlockTxs_not_found runTx c hash block hRun
      block.transactions hAll a.state
    rcases hrep : replayBlockTxs runTx c hash block block.transactions a.state
      with ⟨res, log, s''⟩
    rw [hrep] at h
    have hr : res = .error (.txExec
        "Unable to find a transaction in a block that contains that transaction, this should never happen") :=
      h
    exact ⟨by simp [traceTransaction, hC, hHf, hrep, hr], rfl⟩

/-- Claim C9, witness: tracing hash 99 in a block `[txA, txBad]` hits the
unsupported type-3 transaction and fails with the internal error; tracing
hash 99 in `[txA, txB]` exhausts the block and fails with the
transaction-not-found error. -/
theorem traceTransaction_replay_failure_modes_witness :
    (traceTransaction localCfg constRunTx 99 (blockAt 1 [txA, txBad])
        baseAdapter).1.result =
      .error (.internal "Only legacy, EIP2930, and EIP1559 txs are supported") ∧
    (traceTransaction localCfg constRunTx 99 (blockAt 1 [txA, txB])
        baseAdapter).1.result =
      .error (.txExec
        "Unable to find a transaction in a block that contains that transaction, this should never happen") :=
  have h1 := (traceTransaction_replay_failure_modes localCfg constRunTx 99
    (blockAt 1 [txA, txBad]) baseAdapter ⟨1, 7, .london⟩
    (fun cm fl bl t s => ⟨⟨21000, false⟩, s, rfl⟩) rfl rfl).1
    [txA] txBad [] rfl (by decide) (by decide)
  have h2 := (traceTransaction_replay_failure_modes localCfg constRunTx 99
    (blockAt 1 [txA, txB]) baseAdapter ⟨1, 7, .london⟩
    (fun cm fl bl t s => ⟨⟨21000, false⟩, s, rfl⟩) rfl rfl).2
    (by decide)
  ⟨h1.1, h2.1⟩

/-- Removing the most recently added instance of `x` from a listener list
that ends in `x` drops exactly that final registration. -/
theorem removeLastOccurrence_append (x : Nat) (l : List Nat) :
    removeLastOccurrence x (l ++ [x]) = l := by
  simp [removeLastOccurrence, removeFirstOccurrence]

/-- Variant for a list ending in `y` then `x`: removing the most recent
instance of `x` keeps the earlier registration `y`. -/
theorem removeLastOccurrence_append_pair (x y : Nat) (l : List Nat) :
    removeLastOccurrence x (l ++ [y, x]) = l ++ [y] := by
  have h : l ++ [y, x] = (l ++ [y]) ++ [x] := by simp
  rw [h, removeLastOccurrence_append]

/-- Claim C10: calling `enableTracing` while a session is already active
does not fail — it overwrites the stored callback triple with the new one
while the earlier triple's listeners stay registered; the next
`disableTracing` detaches exactly the most recently attached three hooks and
clears the slot, so the earlier hooks remain attached, and a further
`disableTracing` is a no-op, leaving them attached for good. -/
theorem enableTracing_overlap_leaks_listeners (a : Adapter)
    (c1 c2 : TracingCallbacks) :
    (enableTracing c2 (enableTracing c1 a)).tracingCallbacks = some c2 ∧
    (enableTracing c2 (enableTracing c1 a)).beforeMessageListeners =
      a.beforeMessageListeners ++ [c1.beforeMessage, c2.beforeMessage] ∧
    (enableTracing c2 (enableTracing c1 a)).stepListeners =
      a.stepListeners ++ [c1.step, c2.step] ∧
    (enableTracing c2 (enableTracing c1 a)).afterMessageListeners =
      a.afterMessageListeners ++ [c1.afterMessage, c2.afterMessage] ∧
    disableTracing (enableTracing c2 (enableTracing c1 a)) =
      { a with
          tracingCallbacks := none
          beforeMessageListeners :=
            a.beforeMessageListeners ++ [c1.beforeMessage]
          stepListeners := a.stepListeners ++ [c1.step]
          afterMessageListeners :=
            a.afterMessageListeners ++ [c1.afterMessage] } ∧
    disableTracing (disableTracing (enableTracing c2 (enableTracing c1 a))) =
      disableTracing (enableTracing c2 (enableTracing c1 a)) := by
  refine ⟨rfl, by simp [enableTracing], by simp [enableTracing],
    by simp [enableTracing], ?_, ?_⟩
  · show ({ a with
        tracingCallbacks := none
        beforeMessageListeners := removeLastOccurrence c2.beforeMessage
          ((a.beforeMessageListeners ++ [c1.beforeMessage]) ++ [c2.beforeMessage])
        stepListeners := removeLastOccurrence c2.step
          ((a.stepListeners ++ [c1.step]) ++ [c2.step])
        afterMessageListeners := removeLastOccurrence c2.afterMessage
          ((a.afterMessageListeners ++ [c1.afterMessage]) ++ [c2.afterMessage]) } :
        Adapter) = _
    simp [removeLastOccurrence_append_pair]
  · rfl

end EthereumJS
